import Mathlib

/-
Verification of the recording-window / retention-manager core of
ovro_data_recorder, as a shallow embedding of the Python sources
(filewriter.py, monitoring.py, quota_manager.py).

Times and time tags are modelled as integers (the source compares
datetimes and monotone tuple conversions of integer time tags; only the
order structure matters for the properties below).  File sizes are
naturals, disk-ratio and sleep computations are rationals.
-/

namespace OvroDR

/-! ## FileWriterBase timing state (filewriter.py lines 25-163)

The source keeps `start_time`, `stop_time` and the precomputed padded
bounds `_padded_start_time = start_time - margin` and
`_padded_stop_time = stop_time + margin` (set once in `__init__`).
`cancel()` executes `self.stop = datetime.utcnow() - 2*self._margin`,
which creates an instance attribute named `stop` (shadowing the `stop`
method); it does not touch `stop_time` or the padded bounds.  We model
that attribute as `stopAttr`.
-/

def fwMargin : Int := 1

structure FWState where
  start_time : Int
  stop_time : Int
  padded_start : Int
  padded_stop : Int
  stopAttr : Option Int
  started : Bool
deriving DecidableEq, Repr

def mkFileWriter (start stop : Int) : FWState :=
  { start_time := start
    stop_time := stop
    padded_start := start - fwMargin
    padded_stop := stop + fwMargin
    stopAttr := none
    started := false }

def fwIsActive (s : FWState) (now : Int) : Bool :=
  decide (s.padded_start ≤ now) && decide (now ≤ s.padded_stop)

def fwIsExpired (s : FWState) (now : Int) : Bool :=
  decide (s.padded_stop < now)

/-- Model of `FileWriterBase.cancel` (filewriter.py lines 156-163): the
conditional `self.stop()` call only touches the sink and filesystem; the
final assignment binds the instance attribute `stop` (not `stop_time`)
to `now - 2*margin`.  All timing fields are left unchanged. -/
def fwCancel (s : FWState) (now : Int) : FWState :=
  { s with stopAttr := some (now - 2 * fwMargin) }

/-! ## HDF5Writer.write block slicing (filewriter.py lines 213-256) -/

/-- Per-sample time tags `time_tag + i*step` for `i in [0, n)`, the list
built at filewriter.py line 228 (the source converts each tag with the
strictly monotone `timetag_to_tuple`; we compare the integer tags
directly). -/
def timeTags (tt step : Int) (n : Nat) : List Int :=
  (List.range n).map (fun (i : Nat) => tt + (i : Int) * step)

/-- Python `bisect.bisect_left` on a sorted list: the number of elements
smaller than `x`, i.e. the first insertion point for `x`. -/
def bisect_left (l : List Int) (x : Int) : Nat :=
  (l.takeWhile (fun t => decide (t < x))).length

/-- Python `bisect.bisect_right` on a sorted list: the number of
elements not exceeding `x`. -/
def bisect_right (l : List Int) (x : Int) : Nat :=
  (l.takeWhile (fun t => decide (t ≤ x))).length

structure HDF5State where
  start_time_tag : Int
  stop_time_tag : Int
  counter : Nat
deriving DecidableEq, Repr

inductive HDF5WriteResult where
  | notAccepted
  | runtimeError
  | indexError
  | accepted (rangeStart rangeStop newCounter : Nat)
deriving DecidableEq, Repr

/-- Model of `HDF5Writer.write` (filewriter.py lines 213-256).  The
`is_active` / `is_started` checks are passed in as the booleans they
evaluate to; `n` is the number of samples in the (post-reduction) block.
An empty block faults at `time_tags[0]` (IndexError). -/
def hdf5Write (s : HDF5State) (active started : Bool) (time_tag time_step : Int)
    (n : Nat) : HDF5WriteResult :=
  if active = false then .notAccepted
  else if started = false then .runtimeError
  else if n = 0 then .indexError
  else if (timeTags time_tag time_step n).headD 0 < s.start_time_tag then
    .accepted (bisect_left (timeTags time_tag time_step n) s.start_time_tag) n
      (s.counter + (n - bisect_left (timeTags time_tag time_step n) s.start_time_tag))
  else if s.stop_time_tag < (timeTags time_tag time_step n).getLastD 0 then
    .accepted 0 (bisect_right (timeTags time_tag time_step n) s.stop_time_tag)
      (s.counter + bisect_right (timeTags time_tag time_step n) s.stop_time_tag)
  else
    .accepted 0 n (s.counter + n)

/-- Stated from the claim's words: the least index `i < n` whose
timestamp `tt + i*step` is at least `x`, or `n` when there is none. -/
def firstIndexGe (tt step x : Int) (n : Nat) : Nat :=
  (List.range n).findIdx (fun (i : Nat) => decide (x ≤ tt + (i : Int) * step))

/-- Stated from the claim's words: the least index `i < n` whose
timestamp `tt + i*step` is strictly greater than `x`, or `n` when there
is none. -/
def firstIndexGt (tt step x : Int) (n : Nat) : Nat :=
  (List.range n).findIdx (fun (i : Nat) => decide (x < tt + (i : Int) * step))

theorem timeTags_length (tt step : Int) (n : Nat) : (timeTags tt step n).length = n := by
  rw [timeTags, List.length_map, List.length_range]

theorem timeTags_headD (tt step : Int) (n : Nat) (hn : 0 < n) :
    (timeTags tt step n).headD 0 = tt := by
  cases n with
  | zero => exact absurd hn (by simp)
  | succ m =>
      rw [timeTags, List.range_succ_eq_map, List.map_cons, List.headD_cons]
      norm_num

theorem timeTags_getLastD (tt step : Int) (n : Nat) (hn : 0 < n) :
    (timeTags tt step n).getLastD 0 = tt + ((n : Int) - 1) * step := by
  cases n with
  | zero => exact absurd hn (by simp)
  | succ m =>
      rw [timeTags, List.range_succ, List.map_append, List.map_singleton,
        List.getLastD_concat]
      push_cast
      ring

theorem length_takeWhile_eq_findIdx_not {α : Type} (p : α → Bool) (l : List α) :
    (l.takeWhile p).length = l.findIdx (fun a => !(p a)) := by
  induction l with
  | nil => simp
  | cons a l ih =>
      by_cases h : p a = true
      · simp [List.takeWhile_cons, List.findIdx_cons, h, ih]
      · simp [List.takeWhile_cons, List.findIdx_cons, h]

theorem findIdx_map_eq {α β : Type} (f : α → β) (q : β → Bool) (l : List α) :
    (l.map f).findIdx q = l.findIdx (fun a => q (f a)) := by
  induction l with
  | nil => rfl
  | cons a l ih => simp [List.findIdx_cons, ih]

theorem bisect_left_timeTags (tt step x : Int) (n : Nat) :
    bisect_left (timeTags tt step n) x = firstIndexGe tt step x n := by
  unfold bisect_left firstIndexGe timeTags
  rw [length_takeWhile_eq_findIdx_not, findIdx_map_eq]
  congr 1
  funext i
  rw [← decide_not]
  simp [not_lt]

theorem bisect_right_timeTags (tt step x : Int) (n : Nat) :
    bisect_right (timeTags tt step n) x = firstIndexGt tt step x n := by
  unfold bisect_right firstIndexGt timeTags
  rw [length_takeWhile_eq_findIdx_not, findIdx_map_eq]
  congr 1
  funext i
  rw [← decide_not]
  simp [not_le]

/-- C1: for a started, active window and an incoming block of `n ≥ 1`
samples with timestamps `tt + i*step` (`step ≥ 0`, so the sequence is
sorted and the bisect calls behave per their sorted-input contract),
`write` accepts exactly one contiguous range chosen by the lead-in,
flush-out, fully-contained checks in that order: lead-in accepts
`[j, n)` with `j` the least index whose timestamp is `≥ start_time_tag`;
flush-out accepts `[0, k)` with `k` the least index whose timestamp is
`> stop_time_tag`; otherwise `[0, n)`; and the write cursor advances by
the accepted count in each case. -/
theorem hdf5_write_slicing (s : HDF5State) (tt step : Int) (n : Nat)
    (hn : 0 < n) (hstep : 0 ≤ step) :
    (tt < s.start_time_tag →
       hdf5Write s true true tt step n =
         .accepted (firstIndexGe tt step s.start_time_tag n) n
           (s.counter + (n - firstIndexGe tt step s.start_time_tag n)))
    ∧ (s.start_time_tag ≤ tt → s.stop_time_tag < tt + ((n : Int) - 1) * step →
       hdf5Write s true true tt step n =
         .accepted 0 (firstIndexGt tt step s.stop_time_tag n)
           (s.counter + firstIndexGt tt step s.stop_time_tag n))
    ∧ (s.start_time_tag ≤ tt → tt + ((n : Int) - 1) * step ≤ s.stop_time_tag →
       hdf5Write s true true tt step n = .accepted 0 n (s.counter + n)) := by
  have hne : ¬ (n = 0) := Nat.pos_iff_ne_zero.mp hn
  refine ⟨?_, ?_, ?_⟩
  · intro hlead
    unfold hdf5Write
    rw [if_neg (by decide : ¬ (true = false)), if_neg (by decide : ¬ (true = false)),
      if_neg hne, timeTags_headD tt step n hn, if_pos hlead, bisect_left_timeTags]
  · intro h1 h2
    unfold hdf5Write
    rw [if_neg (by decide : ¬ (true = false)), if_neg (by decide : ¬ (true = false)),
      if_neg hne, timeTags_headD tt step n hn, if_neg (not_lt.mpr h1),
      timeTags_getLastD tt step n hn, if_pos h2, bisect_right_timeTags]
  · intro h1 h2
    unfold hdf5Write
    rw [if_neg (by decide : ¬ (true = false)), if_neg (by decide : ¬ (true = false)),
      if_neg hne, timeTags_headD tt step n hn, if_neg (not_lt.mpr h1),
      timeTags_getLastD tt step n hn, if_neg (not_lt.mpr h2)]

/-- C1 witness: lead-in block at a concrete input; the window has
`start_time_tag = 10`, `stop_time_tag = 20`, cursor 0, and the block
carries 8 samples timestamped 5..12, so the accepted range is `[5, 8)`
and the cursor advances by 3. -/
theorem hdf5_write_slicing_witness :
    (0 < 8 ∧ (0 : Int) ≤ 1 ∧ (5 : Int) < 10) ∧
    firstIndexGe 5 1 10 8 = 5 ∧
    hdf5Write ⟨10, 20, 0⟩ true true 5 1 8 =
      .accepted (firstIndexGe 5 1 10 8) 8 (0 + (8 - firstIndexGe 5 1 10 8)) :=
  ⟨⟨by decide, by decide, by decide⟩, by decide,
    (hdf5_write_slicing ⟨10, 20, 0⟩ 5 1 8 (by decide) (by decide)).1 (by decide)⟩

/-! ## HDF5Writer.start / MeasurementSetWriter.start (filewriter.py
lines 183-211 and 276-302)

Neither `start` reads the `_started` flag and neither contains a raise
statement or a conditional; each unconditionally recomputes the derived
fields, recreates the sink and sets `_started = True`.  Sink creation
(`create_hdf5` / `create_ms`, external to this file) is modelled as
succeeding, which is how the source treats it.  `q` stands for the
constant `int(FS) / int(CHAN_BW)`. -/

structure HDF5Writer where
  started : Bool
  counter : Nat
  time_step : Int
  start_time_tag : Int
  stop_time_tag : Int
deriving DecidableEq, Repr

inductive StartResult where
  | ok (w : HDF5Writer)
  | error
deriving DecidableEq, Repr

def hdf5Start (_w : HDF5Writer) (navg q start_tag stop_tag : Int) : StartResult :=
  .ok { started := true
        counter := 0
        time_step := navg * q
        start_time_tag := start_tag
        stop_time_tag := stop_tag }

/-! ## MeasurementSetWriter.write (filewriter.py lines 304-335)

The body performs no `is_active` and no `is_started` check.  When
`start()` has not run, the attribute access `self._time_step` at line
307 raises AttributeError; otherwise the method copies the template,
updates it and writes the tarred artifact, whatever the clock says.
The `notAccepted` constructor is the vocabulary for the base-class
convention of returning `False`; no path of this method produces it. -/

inductive MSWriteResult where
  | notAccepted
  | written
  | attributeError
deriving DecidableEq, Repr

def msWrite (started : Bool) (_active : Bool) : MSWriteResult :=
  if started then .written else .attributeError

/-! ## stop() models (filewriter.py lines 133-147 and 337-351)

`FileWriterBase.stop` closes the interface (an absent interface raises
AttributeError, swallowed), then calls `post_stop_task` only when the
output file exists; a NotImplementedError from it is swallowed.
`postImplemented` distinguishes the Tarred variant (which overrides
`post_stop_task`) from the base/HDF5 variants (which do not).
`postCalls` counts post-processing invocations.

`MeasurementSetWriter.stop` first runs `shutil.rmtree(self._template)`,
which raises FileNotFoundError when the template was already removed by
an earlier `stop()`; `os.rmdir(self._tempdir)` has its OSError
swallowed, and the inherited `post_stop_task` raises
NotImplementedError, also swallowed. -/

structure FWStopState where
  interfaceOpen : Bool
  fileExists : Bool
  postCalls : Nat
deriving DecidableEq, Repr

def fwbStop (postImplemented : Bool) (s : FWStopState) : FWStopState :=
  if s.fileExists && postImplemented then
    { interfaceOpen := false, fileExists := s.fileExists, postCalls := s.postCalls + 1 }
  else
    { interfaceOpen := false, fileExists := s.fileExists, postCalls := s.postCalls }

structure MSStopState where
  templateExists : Bool
  postCalls : Nat
deriving DecidableEq, Repr

inductive MSStopResult where
  | ok (s : MSStopState)
  | fileNotFoundError
deriving DecidableEq, Repr

def msStop (s : MSStopState) : MSStopResult :=
  if s.templateExists then .ok { templateExists := false, postCalls := s.postCalls }
  else .fileNotFoundError

/-! ## StatusLogger summary (monitoring.py lines 291-310) -/

inductive Summary where
  | normal
  | warning
  | error
deriving DecidableEq, Repr

/-- Model of the `summary` monitor point written by `StatusLogger.main`:
the exact branch chain of monitoring.py lines 299-310, with the float
ratios modelled as rationals (only order comparisons against the
literals 0.99 and 0.01 occur). -/
def statusSummary (dfree missing : ℚ) : Summary :=
  if dfree < 99/100 ∧ missing < 1/100 then .normal
  else if dfree > 99/100 ∧ missing < 1/100 then .warning
  else if dfree < 99/100 ∧ missing > 1/100 then .warning
  else .error

/-! ## StorageLogger sleep computation (quota_manager.py lines 15 and
150-152) -/

def ALPHA : ℚ := 3/10

/-- Model of `t_sleep = self.update_interval if self.update_interval > 0
else ALPHA * self.update_interval + (1 - ALPHA) * runtime`; the
configured interval is an `int` (argparse `type=int`), the measured
cycle cost a float, modelled as a rational. -/
def tSleep (update_interval : Int) (runtime : ℚ) : ℚ :=
  if 0 < update_interval then (update_interval : ℚ)
  else ALPHA * (update_interval : ℚ) + (1 - ALPHA) * runtime

/-! ## quota_manager.StorageLogger._manage_quota (quota_manager.py
lines 86-101)

The source keeps two parallel deques `_files` / `_file_sizes`
(front = oldest, the glob results are sorted by name), modelled here as
one list of (path, size) pairs.  Each iteration executes
`self._files.pop()` and `self._file_sizes.pop()` — Python `deque.pop()`
takes from the RIGHT end, i.e. the newest entry — before attempting the
disk removal; on failure the exception is logged and swallowed, and the
entry stays dropped from tracking.  `total` is the running `total_size`
tally, decremented only on successful removal.  `removeOk` gives the
outcome of each `shutil.rmtree` call. -/

structure QMState where
  files : List (String × Nat)
  total : Nat
  attempts : List String
  removedCount : Nat
  removedSize : Nat
deriving DecidableEq, Repr

theorem ne_nil_of_one_lt_length {α : Type} {l : List α} (h : 1 < l.length) : l ≠ [] := by
  intro hnil
  rw [hnil] at h
  simp at h

def qmStep (removeOk : String → Bool) (s : QMState) (p : String × Nat) : QMState :=
  { files := s.files.dropLast
    total := if removeOk p.1 then s.total - p.2 else s.total
    attempts := s.attempts ++ [p.1]
    removedCount := if removeOk p.1 then s.removedCount + 1 else s.removedCount
    removedSize := if removeOk p.1 then s.removedSize + p.2 else s.removedSize }

def qmLoop (quota : Nat) (removeOk : String → Bool) (s : QMState) : QMState :=
  if h : quota < s.total ∧ 1 < s.files.length then
    qmLoop quota removeOk (qmStep removeOk s (s.files.getLast (ne_nil_of_one_lt_length h.2)))
  else s
termination_by s.files.length
decreasing_by
  simp only [qmStep, List.length_dropLast]
  omega

def qmManageQuota (quota : Nat) (removeOk : String → Bool)
    (files : List (String × Nat)) : QMState :=
  qmLoop quota removeOk
    { files := files
      total := (files.map Prod.snd).sum
      attempts := []
      removedCount := 0
      removedSize := 0 }

/-! ## monitoring.StorageLogger._manage_quota (monitoring.py lines
167-194)

This variant walks an index `i` from the front (oldest) of the plain
lists `_files` / `_file_sizes`; `to_remove = self._files[i]` is executed
OUTSIDE the try block, so when `i` has run past the end (every remaining
removal failing while still over quota) the lookup raises IndexError,
which escapes `_manage_quota`.  On a successful removal the entry is
deleted and `i` resets to 0; on failure `i` advances.  `total_size` is
recomputed from the tracked sizes each iteration. -/

structure MonState where
  files : List (String × Nat)
  i : Nat
  removed : List String
deriving DecidableEq, Repr

inductive MonQuotaResult where
  | ok (files : List (String × Nat)) (removed : List String)
  | indexError (i : Nat)
deriving DecidableEq, Repr

def monTotal (files : List (String × Nat)) : Nat := (files.map Prod.snd).sum

def monLoop (quota : Nat) (removeOk : String → Bool) (s : MonState) : MonQuotaResult :=
  if quota < monTotal s.files ∧ 1 < s.files.length then
    if hi : s.i < s.files.length then
      if removeOk (s.files.get ⟨s.i, hi⟩).1 then
        monLoop quota removeOk
          { files := s.files.eraseIdx s.i, i := 0,
            removed := s.removed ++ [(s.files.get ⟨s.i, hi⟩).1] }
      else
        monLoop quota removeOk { files := s.files, i := s.i + 1, removed := s.removed }
    else .indexError s.i
  else .ok s.files s.removed
termination_by (s.files.length, s.files.length - s.i)
decreasing_by
  · apply Prod.Lex.left
    simp only [List.length_eraseIdx, if_pos hi]
    omega
  · apply Prod.Lex.right
    omega

/-! ## Claim theorems -/

/-- C2: the code of `cancel()` does not close the window.  Concrete run:
window scheduled for `[0, 100]` (margin 1), cancelled at time 10.  The
assignment at filewriter.py line 163 binds the instance attribute `stop`
(not `stop_time`), and the padded bounds cached in `__init__` are never
recomputed, so at time 20 the window is still active, not expired, its
`stop_time` and padded stop bound are unchanged, and a subsequent
`write()` gated on `is_active` is still accepted — contradicting the
claim that after `cancel()` every `is_active` check is false, every
`is_expired` check is true and `write()` is rejected. -/
theorem cancel_not_permanent :
    fwIsActive (fwCancel (mkFileWriter 0 100) 10) 20 = true ∧
    fwIsExpired (fwCancel (mkFileWriter 0 100) 10) 20 = false ∧
    (fwCancel (mkFileWriter 0 100) 10).stop_time = 100 ∧
    (fwCancel (mkFileWriter 0 100) 10).padded_stop = 101 ∧
    hdf5Write ⟨0, 100, 0⟩ (fwIsActive (fwCancel (mkFileWriter 0 100) 10) 20) true 20 1 3
      = .accepted 0 3 3 := by
  decide

def exampleEntries : List (String × Nat) := [("a", 10), ("b", 20), ("c", 30), ("d", 5)]

/-- C3: evaluation of both `_manage_quota` variants on the claim's
example (sizes [10,20,30,5] oldest→newest, quota 40, all removals
succeeding).  The quota_manager variant pops from the RIGHT of the
deque (`deque.pop()`), so it removes the two NEWEST entries ("d" then
"c", sizes 5 and 30), keeping the two oldest with total 30 — not the
two oldest (10 and 20) with total 35 as the claim states.  The
monitoring.py variant removes from the front and does match the claim's
example. -/
theorem quota_eviction_order_example :
    qmManageQuota 40 (fun _ => true) exampleEntries
      = ⟨[("a", 10), ("b", 20)], 30, ["d", "c"], 2, 35⟩
    ∧ monLoop 40 (fun _ => true) ⟨exampleEntries, 0, []⟩
      = .ok [("c", 30), ("d", 5)] ["a", "b"] := by
  constructor
  · simp [exampleEntries, qmManageQuota, qmLoop, qmStep]
  · simp [exampleEntries, monLoop, monTotal]

/-- C4 counterexample: the MeasurementSet variant performs no activity
check, so `write()` on a started but inactive window proceeds and
produces an artifact rather than returning the "not accepted" result
the claim promises for every variant. -/
theorem ms_write_inactive_not_rejected :
    msWrite true false = .written ∧ MSWriteResult.written ≠ MSWriteResult.notAccepted := by
  decide

/-- C4 amended: the HDF5 variant's `write()` on an inactive window
returns the not-accepted result without raising, and on an active but
unstarted window raises RuntimeError; the MeasurementSet variant checks
neither flag: started, its `write()` proceeds regardless of activity,
and unstarted it raises AttributeError (missing `_time_step`). -/
theorem write_guards_by_variant :
    (∀ (started : Bool) (s : HDF5State) (tt step : Int) (n : Nat),
        hdf5Write s false started tt step n = .notAccepted)
    ∧ (∀ (s : HDF5State) (tt step : Int) (n : Nat),
        hdf5Write s true false tt step n = .runtimeError)
    ∧ (∀ active : Bool, msWrite true active = .written)
    ∧ (∀ active : Bool, msWrite false active = .attributeError) := by
  exact ⟨fun _ _ _ _ _ => rfl, fun _ _ _ _ => rfl, fun _ => rfl, fun _ => rfl⟩

/-- C5 counterexample: at disk-free ratio exactly 0.99 with missing
fraction 0.001, exactly one of the two conditions (r < 0.99, m < 0.01)
fails, so the claim's 2×2 table says 'warning'; but every branch guard
in monitoring.py lines 299-307 compares strictly, so none matches and
the code publishes 'error'. -/
theorem summary_boundary_error :
    ¬((99 : ℚ)/100 < 99/100) ∧ ((1 : ℚ)/1000 < 1/100) ∧
    statusSummary (99/100) (1/1000) = .error := by
  refine ⟨by norm_num, by norm_num, ?_⟩
  unfold statusSummary
  norm_num

/-- C5 amended: the summary is 'normal' iff r < 0.99 and m < 0.01;
'warning' iff r > 0.99 with m < 0.01, or r < 0.99 with m > 0.01;
'error' otherwise — i.e. also on the boundary cases r = 0.99 or
m = 0.01, not only when both conditions fail.  The claim's four
concrete examples all hold. -/
theorem summary_table (r m : ℚ) :
    (statusSummary r m = .normal ↔ (r < 99/100 ∧ m < 1/100))
    ∧ (statusSummary r m = .warning ↔
        ((99/100 < r ∧ m < 1/100) ∨ (r < 99/100 ∧ 1/100 < m)))
    ∧ (statusSummary r m = .error ↔
        (¬(r < 99/100 ∧ m < 1/100) ∧ ¬(99/100 < r ∧ m < 1/100)
          ∧ ¬(r < 99/100 ∧ 1/100 < m)))
    ∧ statusSummary (1/2) (1/1000) = .normal
    ∧ statusSummary (999/1000) (1/1000) = .warning
    ∧ statusSummary (1/2) (1/50) = .warning
    ∧ statusSummary (999/1000) (1/50) = .error := by
  refine ⟨?_, ?_, ?_, by norm_num [statusSummary], by norm_num [statusSummary],
    by norm_num [statusSummary], by norm_num [statusSummary]⟩
  · unfold statusSummary
    split_ifs with h1 h2 h3
    · exact iff_of_true rfl h1
    · exact iff_of_false (by decide) h1
    · exact iff_of_false (by decide) h1
    · exact iff_of_false (by decide) h1
  · unfold statusSummary
    split_ifs with h1 h2 h3
    · refine iff_of_false (by decide) ?_
      rintro (⟨hc, _⟩ | ⟨_, hc⟩)
      · exact absurd hc (lt_asymm h1.1)
      · exact absurd hc (lt_asymm h1.2)
    · exact iff_of_true rfl (Or.inl h2)
    · exact iff_of_true rfl (Or.inr h3)
    · refine iff_of_false (by decide) ?_
      rintro (hc | hc)
      · exact h2 hc
      · exact h3 hc
  · unfold statusSummary
    split_ifs with h1 h2 h3
    · exact iff_of_false (by decide) (fun hc => hc.1 h1)
    · exact iff_of_false (by decide) (fun hc => hc.2.1 h2)
    · exact iff_of_false (by decide) (fun hc => hc.2.2 h3)
    · exact iff_of_true rfl ⟨h1, h2, h3⟩

/-- C6 counterexample: the MeasurementSet variant's first `stop()`
removes the template; the second `stop()` then raises FileNotFoundError
from `shutil.rmtree(self._template)` — calling `stop()` twice is not a
non-raising no-op for every variant. -/
theorem ms_stop_twice_raises :
    msStop ⟨true, 0⟩ = .ok ⟨false, 0⟩ ∧ msStop ⟨false, 0⟩ = .fileNotFoundError := by
  decide

/-- C6 amended: for the variants whose `post_stop_task` is not
implemented (base and HDF5), a second `stop()` is an idempotent no-op
with no post-processing invocation; the Tarred variant re-invokes its
archiving post-processing on every `stop()` while the file exists (two
calls ⇒ two invocations); and the MeasurementSet variant's second
`stop()` raises (template already removed). -/
theorem stop_idempotence_by_variant :
    (∀ s : FWStopState, fwbStop false (fwbStop false s) = fwbStop false s)
    ∧ (∀ s : FWStopState, (fwbStop false s).postCalls = s.postCalls)
    ∧ (∀ s : FWStopState,
        (fwbStop true (fwbStop true s)).postCalls
          = s.postCalls + (if s.fileExists then 2 else 0))
    ∧ (∀ c : Nat, msStop ⟨false, c⟩ = .fileNotFoundError) := by
  refine ⟨fun s => ?_, fun s => ?_, fun s => ?_, fun c => rfl⟩
  · simp [fwbStop]
  · simp [fwbStop]
  · rcases s with ⟨io, fe, pc⟩
    cases fe <;> simp [fwbStop]

/-- C7 counterexample: calling `start()` on an already-started writer
(`started = true`, cursor 5) returns normally — it reinitializes the
state and sets the cursor back to 0 — instead of raising the error the
claim promises for a second `start()`. -/
theorem start_twice_no_error :
    hdf5Start ⟨true, 5, 2, 10, 20⟩ 3 4 10 20 = .ok ⟨true, 0, 12, 10, 20⟩ ∧
    StartResult.ok (⟨true, 0, 12, 10, 20⟩ : HDF5Writer) ≠ StartResult.error := by
  decide

/-- C7 amended: `start()` sets the started flag but never reads it and
contains no raise: whenever a first call succeeds, a second call with
the same parameters also returns successfully (re-running the
initialization and leaving the same freshly-reset state), rather than
raising. -/
theorem hdf5_start_unguarded (w w1 : HDF5Writer) (navg q a b : Int)
    (h : hdf5Start w navg q a b = .ok w1) :
    w1.started = true ∧ w1.counter = 0 ∧ hdf5Start w1 navg q a b = .ok w1 := by
  unfold hdf5Start at h
  injection h with h'
  subst h'
  exact ⟨rfl, rfl, rfl⟩

/-- C7 amended witness: concrete double start. -/
theorem hdf5_start_unguarded_witness :
    (hdf5Start ⟨false, 7, 0, 0, 0⟩ 3 4 10 20 = .ok ⟨true, 0, 12, 10, 20⟩) ∧
    ((⟨true, 0, 12, 10, 20⟩ : HDF5Writer).started = true ∧
      (⟨true, 0, 12, 10, 20⟩ : HDF5Writer).counter = 0 ∧
      hdf5Start ⟨true, 0, 12, 10, 20⟩ 3 4 10 20 = .ok ⟨true, 0, 12, 10, 20⟩) :=
  ⟨rfl, hdf5_start_unguarded ⟨false, 7, 0, 0, 0⟩ ⟨true, 0, 12, 10, 20⟩ 3 4 10 20 rfl⟩

/-- C8: with tracked entries of sizes 10 and 20, quota 5, and every
removal failing, the monitoring.py `_manage_quota` walks `i` forward
past both entries and then evaluates `self._files[2]` OUTSIDE the try
block: the loop exits by raising IndexError, which escapes the routine
and aborts the cycle — contradicting the claim that no exception
escapes the quota-enforcement loop regardless of how many removals
fail. -/
theorem quota_failures_crash_cycle :
    monLoop 5 (fun _ => false) ⟨[("a", 10), ("b", 20)], 0, []⟩ = .indexError 2 := by
  simp [monLoop, monTotal]

/-- C9: each cycle's computed sleep is exactly the configured interval
when that interval is positive, and the exponentially-smoothed blend
`0.3 * interval + 0.7 * measured` of the configured non-positive value
and the measured cycle cost otherwise. -/
theorem sleep_schedule (I : Int) (r : ℚ) :
    (0 < I → tSleep I r = (I : ℚ)) ∧
    (I ≤ 0 → tSleep I r = (3/10) * (I : ℚ) + (7/10) * r) := by
  constructor
  · intro h
    unfold tSleep
    rw [if_pos h]
  · intro h
    unfold tSleep ALPHA
    rw [if_neg (not_lt.mpr h)]
    norm_num

/-- C9 witness: positive interval 600 sleeps exactly 600; interval -10
with measured cost 2 sleeps 0.3·(-10) + 0.7·2. -/
theorem sleep_schedule_witness :
    (0 < (600 : Int) ∧ tSleep 600 2 = ((600 : Int) : ℚ)) ∧
    ((-10 : Int) ≤ 0 ∧ tSleep (-10) 2 = (3/10) * ((-10 : Int) : ℚ) + (7/10) * 2) :=
  ⟨⟨by decide, (sleep_schedule 600 2).1 (by decide)⟩,
    ⟨by decide, (sleep_schedule (-10) 2).2 (by decide)⟩⟩

theorem take_dropLast_of_le {α : Type} (l : List α) (k : Nat) (hk : k ≤ l.length - 1) :
    l.dropLast.take k = l.take k := by
  rw [List.dropLast_eq_take, List.take_take, Nat.min_eq_left hk]

theorem qmLoop_fueled_spec (quota : Nat) (removeOk : String → Bool) :
    ∀ (fuel : Nat) (s : QMState), s.files.length ≤ fuel →
      (qmLoop quota removeOk s).files
          = s.files.take (qmLoop quota removeOk s).files.length
      ∧ (qmLoop quota removeOk s).attempts
          = s.attempts
            ++ ((s.files.drop (qmLoop quota removeOk s).files.length).map Prod.fst).reverse
      ∧ ((qmLoop quota removeOk s).total ≤ quota
          ∨ (qmLoop quota removeOk s).files.length ≤ 1)
      ∧ (qmLoop quota removeOk s).files.length ≤ s.files.length := by
  intro fuel
  induction fuel with
  | zero =>
      intro s hs
      rw [qmLoop, dif_neg (by omega)]
      refine ⟨(List.take_length s.files).symm, by simp, by omega, le_refl _⟩
  | succ fuel ih =>
      intro s hs
      rw [qmLoop]
      by_cases h : quota < s.total ∧ 1 < s.files.length
      · rw [dif_pos h]
        set p := s.files.getLast (ne_nil_of_one_lt_length h.2) with hp
        set s1 := qmStep removeOk s p with hs1
        have hstep : s1.files = s.files.dropLast := rfl
        have hstepa : s1.attempts = s.attempts ++ [p.1] := rfl
        have hlen : s1.files.length ≤ fuel := by
          rw [hstep, List.length_dropLast]; omega
        obtain ⟨ih1, ih2, ih3, ih4⟩ := ih s1 hlen
        set r := qmLoop quota removeOk s1 with hrdef
        set k := r.files.length with hkdef
        rw [hstep, List.length_dropLast] at ih4
        rw [hstep] at ih1
        rw [hstepa, hstep] at ih2
        have hsplit : s.files = s.files.dropLast ++ [p] :=
          (List.dropLast_append_getLast (ne_nil_of_one_lt_length h.2)).symm
        have hdl : s.files.dropLast.length = s.files.length - 1 := List.length_dropLast _
        have hdrop : s.files.drop k = s.files.dropLast.drop k ++ [p] := by
          conv_lhs => rw [hsplit]
          rw [List.drop_append_of_le_length (by omega)]
        refine ⟨?_, ?_, ih3, by omega⟩
        · rw [ih1, take_dropLast_of_le s.files k (by omega)]
        · rw [ih2, hdrop, List.map_append, List.reverse_append]
          simp
      · rw [dif_neg h]
        refine ⟨(List.take_length s.files).symm, by simp, by omega, le_refl _⟩

/-- C10: the quota_manager enforcement loop terminates, pops exactly one
tracked entry per iteration before attempting its removal (whether or
not the removal succeeds — the survivors are a front segment of the
input tracking list, the attempted paths are the dropped back segment
in pop order, and their counts add up to the input count), exits with
the running total within quota or at most one entry tracked, and — for
distinct tracked paths — never attempts the same path twice within one
call. -/
theorem qm_enforce_props (quota : Nat) (removeOk : String → Bool)
    (files : List (String × Nat)) :
    (qmManageQuota quota removeOk files).files
        = files.take (qmManageQuota quota removeOk files).files.length
    ∧ (qmManageQuota quota removeOk files).attempts
        = ((files.drop (qmManageQuota quota removeOk files).files.length).map Prod.fst).reverse
    ∧ (qmManageQuota quota removeOk files).files.length
        + (qmManageQuota quota removeOk files).attempts.length = files.length
    ∧ ((qmManageQuota quota removeOk files).total ≤ quota
        ∨ (qmManageQuota quota removeOk files).files.length ≤ 1)
    ∧ ((files.map Prod.fst).Nodup → (qmManageQuota quota removeOk files).attempts.Nodup) := by
  unfold qmManageQuota
  obtain ⟨h1, h2, h3, h4⟩ := qmLoop_fueled_spec quota removeOk files.length
    { files := files
      total := (files.map Prod.snd).sum
      attempts := []
      removedCount := 0
      removedSize := 0 } le_rfl
  have hproj : ({ files := files
                  total := (files.map Prod.snd).sum
                  attempts := []
                  removedCount := 0
                  removedSize := 0 } : QMState).files = files := rfl
  rw [hproj] at h1 h2 h4
  rw [List.nil_append] at h2
  refine ⟨h1, h2, ?_, h3, ?_⟩
  · rw [h2, List.length_reverse, List.length_map, List.length_drop]
    omega
  · intro hnd
    rw [h2, List.nodup_reverse]
    exact List.Nodup.sublist
      (List.Sublist.map Prod.fst (List.drop_sublist _ files)) hnd

/-- C10 witness: concrete enforcement run with quota 40, all removals
succeeding, on four tracked entries with distinct paths. -/
theorem qm_enforce_props_witness :
    ((([("a", 10), ("b", 20), ("c", 30), ("d", 5)] : List (String × Nat)).map Prod.fst).Nodup
      ∧ (qmManageQuota 40 (fun _ => true)
          [("a", 10), ("b", 20), ("c", 30), ("d", 5)]).attempts.Nodup)
    ∧ ((qmManageQuota 40 (fun _ => true)
          [("a", 10), ("b", 20), ("c", 30), ("d", 5)]).total ≤ 40
        ∨ (qmManageQuota 40 (fun _ => true)
            [("a", 10), ("b", 20), ("c", 30), ("d", 5)]).files.length ≤ 1) :=
  have h := qm_enforce_props 40 (fun _ => true) [("a", 10), ("b", 20), ("c", 30), ("d", 5)]
  ⟨⟨by decide, h.2.2.2.2 (by decide)⟩, h.2.2.2.1⟩

end OvroDR
